import Mathlib

/-!
Verification development for the news-polling agent in `mewnews.py` and
`mewnews-client.py`: a shallow embedding of the summarizer post-processing,
message normalization, broadcast delivery, one-shot transport, startup
sequence, query construction and the credential pool described by the
design document, together with theorems settling the documented claims.

Python strings are embedded as `List Char`; external services (the search
API, the LLM, `json.loads`, the socket layer) are embedded as oracle
parameters describing their observable outcome.
-/

namespace MewNews

/-! ### Character-list utilities (Python string operations) -/

/-- The whitespace characters removed by Python `str.strip()`. -/
def wsChars : List Char := " \t\n\r\x0b\x0c".toList

/-- Whether `c` is Python whitespace. -/
def isWs (c : Char) : Bool := wsChars.contains c

/-- Python `s.strip()`: drop whitespace from both ends. -/
def trimWs (s : List Char) : List Char :=
  ((s.dropWhile isWs).reverse.dropWhile isWs).reverse

/-- Python `t in s` for strings: `t` occurs as a contiguous substring of `s`. -/
def containsSub (t : List Char) : List Char → Bool
  | [] => t.isEmpty
  | c :: s => t.isPrefixOf (c :: s) || containsSub t s

/-- Python `s.replace(pat, "")` for a non-empty pattern `p :: ps`: remove the
non-overlapping occurrences of the pattern, scanning left to right. -/
def removeAll (p : Char) (ps : List Char) : List Char → List Char
  | [] => []
  | c :: s =>
    if (p :: ps).isPrefixOf (c :: s) then removeAll p ps (s.drop ps.length)
    else c :: removeAll p ps s
termination_by l => l.length
decreasing_by
  · simp [List.length_drop]
    omega
  · simp

/-- Python `s.replace(pat, "")`, taking the pattern as one list (the patterns
used by the program are the non-empty fence markers). -/
def removeAllPat (pat : List Char) (s : List Char) : List Char :=
  match pat with
  | [] => s
  | p :: ps => removeAll p ps s

/-! ### Summarizer post-processing (`process_with_gemini`) -/

/-- The sentinel token `"NO_NEWS"`. -/
def noNewsTok : List Char := "NO_NEWS".toList

/-- The code-fence marker `"```"`. -/
def fenceTok : List Char := "```".toList

/-- The tagged code-fence marker `"```json"`. -/
def fenceJsonTok : List Char := "```json".toList

/-- Post-processing of the raw model output inside `process_with_gemini`
(`mewnews.py` lines 97-100, `mewnews-client.py` lines 113-116):
`content = response.content.strip()`; if it starts with a fence, remove
`"```json"` then `"```"` and strip again; if `"NO_NEWS"` occurs in the
result return `None`, else return the content. -/
def processContent (raw : List Char) : Option (List Char) :=
  let content := trimWs raw
  let content2 :=
    if fenceTok.isPrefixOf content then
      trimWs (removeAllPat fenceTok (removeAllPat fenceJsonTok content))
    else content
  if containsSub noNewsTok content2 then none else some content2

/-! ### The LLM call in `process_with_gemini` -/

/-- Observable outcome of one invocation of the summarization chain: the raw
response text, a rate-limit/quota error, or any other exception. -/
inductive GeminiOutcome where
  | ok (raw : List Char)
  | quotaError
  | otherError

/-- Observables of one call of `process_with_gemini`: its return value, the
number of invocations of the Summarization service performed, and the API
key passed to each invocation. -/
structure GeminiRun where
  result : Option (List Char)
  attempts : Nat
  keysUsed : List (Option String)

/-- `process_with_gemini(tavily_results)` (`mewnews.py` lines 67-103,
`mewnews-client.py` lines 77-119). `key` is the module-level
`GOOGLE_API_KEY`; `oracle i` is the outcome the Summarization service would
give to the i-th invocation made during this call. The code returns `None`
for falsy input (`None` or an empty list), then performs a single
invocation inside one `try`: a response is post-processed by
`processContent`, any exception is printed and mapped to `None`. -/
def processWithGemini (key : Option String)
    (tavilyResults : Option (List (String × String)))
    (oracle : Nat → GeminiOutcome) : GeminiRun :=
  match tavilyResults with
  | none => ⟨none, 0, []⟩
  | some [] => ⟨none, 0, []⟩
  | some (_ :: _) =>
    match oracle 0 with
    | GeminiOutcome.ok raw => ⟨processContent raw, 1, [key]⟩
    | GeminiOutcome.quotaError => ⟨none, 1, [key]⟩
    | GeminiOutcome.otherError => ⟨none, 1, [key]⟩

/-- One poll of the news loop after the fetch (`news_loop`, `mewnews.py`
lines 132-138; `main`, `mewnews-client.py` lines 166-173): the message
handed to the transport, or `none` when nothing is sent. `if json_res:` is
Python truthiness, so an empty string is also not transmitted. -/
def newsCycleMessage (key : Option String)
    (tavilyResults : Option (List (String × String)))
    (oracle : Nat → GeminiOutcome) : Option (List Char) :=
  match (processWithGemini key tavilyResults oracle).result with
  | none => none
  | some [] => none
  | some m => some m

/-! ### JSON payloads and the message normalizer -/

/-- JSON values as produced by `json.loads`. Arrays do not occur in any
payload the program builds and are omitted. -/
inductive Json where
  | str (s : String)
  | num (n : Int)
  | bool (b : Bool)
  | null
  | obj (fields : List (String × Json))

/-- The Python exceptions the embedded fragments can raise. -/
inductive PyErr where
  | typeError
  | attributeError
  | keyError
  deriving Repr, DecidableEq

mutual

/-- Python `repr()` of a parsed JSON value. -/
def pyRepr : Json → String
  | Json.str s => "\x27" ++ s ++ "\x27"
  | Json.num n => toString n
  | Json.bool b => if b then "True" else "False"
  | Json.null => "None"
  | Json.obj fs => "\x7b" ++ String.intercalate ", " (pyReprFields fs) ++ "\x7d"

/-- `repr()` of the key-value pairs of a Python dict. -/
def pyReprFields : List (String × Json) → List String
  | [] => []
  | (k, v) :: rest => ("\x27" ++ k ++ "\x27: " ++ pyRepr v) :: pyReprFields rest

end

/-- Python `str(payload)`: a string is itself, other values use `repr`. -/
def pyStrOfJson : Json → String
  | Json.str s => s
  | j => pyRepr j

/-- Python `dict.get k` on parsed-JSON object fields (`json.loads` never
produces duplicate keys; the first binding wins). -/
def jsonGet (fs : List (String × Json)) (k : String) : Option Json :=
  match fs with
  | [] => none
  | (k2, v) :: rest => if k2 == k then some v else jsonGet rest k

/-- Whether the dict has a `"type"` key. -/
def hasTypeKey (fs : List (String × Json)) : Bool :=
  fs.any (fun kv => kv.1 == "type")

/-- Python `"type" in payload`: key membership for a dict, substring test
for a string; a number, boolean or `None` raises `TypeError`. -/
def pyContainsTypeKey : Json → Except PyErr Bool
  | Json.obj fs => Except.ok (hasTypeKey fs)
  | Json.str s => Except.ok (containsSub "type".toList s.toList)
  | _ => Except.error PyErr.typeError

/-- The payload `{"type": "chat", "text": t}`. -/
def chatObj (t : Json) : Json :=
  Json.obj [("type", Json.str "chat"), ("text", t)]

/-- The `message_data` argument of `broadcast` / `send_oneshot_message`.
For a string input, `parsed` is the outcome of `json.loads` on it: `none`
when parsing raises, otherwise the parsed value. -/
inductive MessageData where
  | rawStr (s : String) (parsed : Option Json)
  | direct (j : Json)

/-- The synthesis branch
`payload = {"type": "chat", "text": payload.get("text", str(payload))}`;
`.get` exists only on a dict, any other payload raises `AttributeError`. -/
def synthChat : Json → Except PyErr Json
  | Json.obj fs =>
    Except.ok (chatObj ((jsonGet fs "text").getD
      (Json.str (pyStrOfJson (Json.obj fs)))))
  | _ => Except.error PyErr.attributeError

/-- The `type`-field fixup `if "type" not in payload: payload = {...}`. -/
def typeFix (j : Json) : Except PyErr Json :=
  match pyContainsTypeKey j with
  | Except.error e => Except.error e
  | Except.ok true => Except.ok j
  | Except.ok false => synthChat j

/-- Payload normalization shared by `broadcast` (`mewnews.py` lines 107-111)
and `send_oneshot_message` (`mewnews-client.py` lines 129-136): a string is
JSON-parsed, wrapped as a chat message when parsing fails; a payload
without a `type` field is replaced by a synthesized chat object. -/
def normalizePayload : MessageData → Except PyErr Json
  | MessageData.rawStr s none => Except.ok (chatObj (Json.str s))
  | MessageData.rawStr _ (some j) => typeFix j
  | MessageData.direct j => typeFix j

/-! ### The broadcast server (`mewnews.py`) -/

/-- A websocket handle in the `connected_clients` set. -/
abbrev Handle := Nat

/-- Observables of one `broadcast` call: the client set afterwards, the
serialized payload (when serialization happened), the handles a send was
attempted for, and the handles delivered to. -/
structure BroadcastResult where
  post : List Handle
  serialized : Option Json
  attempts : List Handle
  delivered : List Handle

/-- The send loop of `broadcast` (`mewnews.py` lines 115-117): iterate over
a copy of the set; a send failure evicts that handle from the live set.
`fails h = true` means `ws.send` raises for handle `h` in this broadcast.
Returns the final set and the handles delivered to, in order. -/
def broadcastSendLoop (fails : Handle → Bool) :
    List Handle → List Handle → List Handle × List Handle
  | [], live => (live, [])
  | ws :: rest, live =>
    if fails ws then
      broadcastSendLoop fails rest (live.erase ws)
    else
      let r := broadcastSendLoop fails rest live
      (r.1, ws :: r.2)

/-- `broadcast(message_data)` (`mewnews.py` lines 105-117): an empty client
set returns before any normalization or serialization; otherwise the
payload is normalized, serialized once and sent to every handle in a copy
of the set, evicting handles whose send raises. A normalization error
(possible on this path, which has no enclosing `try`) propagates. -/
def broadcast (md : MessageData) (clients : List Handle)
    (fails : Handle → Bool) : Except PyErr BroadcastResult :=
  match clients with
  | [] => Except.ok ⟨[], none, [], []⟩
  | c :: cs =>
    match normalizePayload md with
    | Except.error e => Except.error e
    | Except.ok payload =>
      let r := broadcastSendLoop fails (c :: cs) (c :: cs)
      Except.ok ⟨r.1, some payload, c :: cs, r.2⟩

/-- Python `set.remove`: raises `KeyError` when the element is absent. This
is the unconditional cleanup in the `finally` of `connection_handler`
(`mewnews.py` line 127). -/
def setRemove (s : List Handle) (h : Handle) : Except PyErr (List Handle) :=
  if h ∈ s then Except.ok (s.erase h) else Except.error PyErr.keyError

/-! ### The one-shot client transport (`mewnews-client.py`) -/

/-- Outcome of the connection attempt inside `send_oneshot_message`. -/
inductive ConnOutcome where
  | ok
  | refused
  | connectFailed
  | sendFailed
  deriving Repr, DecidableEq

/-- Observables of one `send_oneshot_message` call. -/
structure OneshotResult where
  connectionsAttempted : Nat
  connectionsOpened : Nat
  sent : List Json
  closedCount : Nat
  reported : Bool
  raised : Bool

/-- `send_oneshot_message(message_data)` (`mewnews-client.py` lines
122-149): normalize and serialize the payload, open one fresh connection,
send the one message, and close by leaving the `async with` block. The
whole body sits in a `try`; `ConnectionRefusedError` and every other
exception are caught and printed. -/
def sendOneshotMessage (md : MessageData) (conn : ConnOutcome) : OneshotResult :=
  match normalizePayload md with
  | Except.error _ => ⟨0, 0, [], 0, true, false⟩
  | Except.ok payload =>
    match conn with
    | ConnOutcome.ok => ⟨1, 1, [payload], 1, false, false⟩
    | ConnOutcome.refused => ⟨1, 0, [], 0, true, false⟩
    | ConnOutcome.connectFailed => ⟨1, 0, [], 0, true, false⟩
    | ConnOutcome.sendFailed => ⟨1, 1, [], 1, true, false⟩

/-! ### Startup -/

/-- A process environment, as read by `os.getenv`. -/
abbrev Env := List (String × String)

/-- `os.getenv`. -/
def osGetenv (env : Env) (k : String) : Option String :=
  (env.find? (fun kv => kv.1 == k)).map (fun kv => kv.2)

/-- The module-level configuration read at import time (line 15-16 of both
files): both keys are read with `os.getenv`, which yields `None` when the
variable is absent; no presence check is performed anywhere. -/
structure Config where
  googleApiKey : Option String
  tavilyApiKey : Option String
  deriving Repr, DecidableEq

/-- Module-level environment reads of `mewnews.py` / `mewnews-client.py`. -/
def loadConfig (env : Env) : Config :=
  ⟨osGetenv env "GOOGLE_API_KEY", osGetenv env "TAVILY_API_KEY"⟩

/-- The steps `main()` can perform. -/
inductive StartupAction where
  | printBanner
  | startServer
  | enterNewsLoop
  | exitProcess
  deriving Repr, DecidableEq

/-- The startup sequence of `main` in `mewnews.py` (lines 140-143): print
the banner, start the websocket server, enter `news_loop`. No step of the
startup path examines the configuration, so the action list does not
depend on `cfg`. -/
def mainStartup (_cfg : Config) : List StartupAction :=
  [StartupAction.printBanner, StartupAction.startServer, StartupAction.enterNewsLoop]

/-! ### Search queries -/

/-- `SEARCH_QUERY` (`mewnews.py` line 45). -/
def SEARCH_QUERY : String := "為替 FX 市場ニュース 最新 ドル円 ユーロドル"

/-- The query `news_loop` hands to `fetch_news_tavily` on every cycle
(`mewnews.py` lines 132-133): the constant `SEARCH_QUERY`, whatever the
current date. -/
def serverCycleQuery (_today : String) : String := SEARCH_QUERY

/-- The fixed base phrase of the client query (`mewnews-client.py` line 164). -/
def clientQueryBase : String := "為替 FX 市場ニュース 最新 ドル円 ユーロドル ポンド"

/-- Two-digit zero-padded field of `strftime` (`%m`, `%d`). -/
def pad2 (n : Nat) : String := if n < 10 then "0" ++ toString n else toString n

/-- Four-digit zero-padded year field of `strftime` (`%Y`). -/
def pad4 (n : Nat) : String :=
  if n < 10 then "000" ++ toString n
  else if n < 100 then "00" ++ toString n
  else if n < 1000 then "0" ++ toString n
  else toString n

/-- `datetime.now().strftime("%Y-%m-%d")` applied to year, month, day. -/
def formatDateYMD (y m d : Nat) : String := pad4 y ++ "-" ++ pad2 m ++ "-" ++ pad2 d

/-- The query built on each cycle by the client `main`
(`mewnews-client.py` lines 163-164): an f-string appending `today_str`. -/
def clientCycleQuery (todayStr : String) : String := clientQueryBase ++ " " ++ todayStr

/-! ### The credential pool of the design document -/

/-- Modelled from the spec: the source files contain no credential pool (a
single `GOOGLE_API_KEY` is read once and reused); section 3 of the design
document describes a Credential Pool as an ordered, non-empty collection
of interchangeable API keys mutated only by a round-robin cursor. -/
structure CredentialPool where
  keys : List String
  cursor : Nat
  deriving Repr, DecidableEq

/-- Modelled from the spec: dispense the key at the cursor (wrapping past
the last key) and advance the cursor by one. -/
def dispense (p : CredentialPool) : String × CredentialPool :=
  (p.keys.getD (p.cursor % p.keys.length) "", ⟨p.keys, p.cursor + 1⟩)

/-- Dispense `n` keys in sequence, returning them in order. -/
def dispenseN : Nat → CredentialPool → List String × CredentialPool
  | 0, p => ([], p)
  | n + 1, p =>
    let kp := dispense p
    let rest := dispenseN n kp.2
    (kp.1 :: rest.1, rest.2)

/-! ### Concrete inputs used by witnesses and counterexamples -/

/-- A well-formed chat message string together with its JSON parse. -/
def chatMsgInput : MessageData :=
  MessageData.rawStr "\x7b\"type\": \"chat\", \"text\": \"hi\"\x7d"
    (some (Json.obj [("type", Json.str "chat"), ("text", Json.str "hi")]))

/-- The model output `{"text": ""}` together with its JSON parse: an object
lacking a `type` key whose `text` is the empty string. -/
def emptyTextInput : MessageData :=
  MessageData.rawStr "\x7b\"text\": \"\"\x7d"
    (some (Json.obj [("text", Json.str "")]))

/-- Whether a normalized payload carries a non-empty `text` field. -/
def textNonempty : Json → Bool
  | Json.obj fs =>
    match jsonGet fs "text" with
    | some (Json.str s) => !s.isEmpty
    | some _ => true
    | none => false
  | _ => false

/-- The oracle where the first attempt hits the quota limit and a second
attempt would return a valid summary. -/
def quotaThenOk : Nat → GeminiOutcome :=
  fun i => if i = 0 then GeminiOutcome.quotaError else GeminiOutcome.ok "ニュースだ".toList

/-! ### Lemmas: substring checks and their preservation -/

theorem containsSub_iff {t s : List Char} : containsSub t s = true ↔ t <:+: s := by
  induction s with
  | nil => simp [containsSub, List.isEmpty_iff, List.infix_nil]
  | cons c s ih =>
    simp [containsSub, ih, List.infix_cons_iff]

theorem infix_dropWhile_of_not {p : Char → Bool} {t : List Char}
    (hne : t ≠ []) (hchar : ∀ c ∈ t, p c = false) :
    ∀ {s : List Char}, t <:+: s → t <:+: s.dropWhile p := by
  intro s
  induction s with
  | nil => intro h; simpa using h
  | cons c s ih =>
    intro h
    by_cases hc : p c
    · rw [List.dropWhile_cons_of_pos hc]
      apply ih
      rcases List.infix_cons_iff.mp h with hpre | hinf
      · rcases t with _ | ⟨a, t2⟩
        · exact absurd rfl hne
        · obtain ⟨rfl, -⟩ := List.cons_prefix_cons.mp hpre
          have := hchar a (List.mem_cons_self a t2)
          rw [this] at hc
          exact absurd hc (by simp)
      · exact hinf
    · rw [List.dropWhile_cons_of_neg hc]
      exact h

theorem infix_trimWs {t s : List Char} (hne : t ≠ [])
    (hchar : ∀ c ∈ t, isWs c = false) (h : t <:+: s) : t <:+: trimWs s := by
  unfold trimWs
  have h1 : t <:+: s.dropWhile isWs := infix_dropWhile_of_not hne hchar h
  have h2 : t.reverse <:+: (s.dropWhile isWs).reverse := List.IsInfix.reverse h1
  have hne2 : t.reverse ≠ [] := by simpa using hne
  have hchar2 : ∀ c ∈ t.reverse, isWs c = false := by
    intro c hc
    exact hchar c (List.mem_reverse.mp hc)
  have h3 := infix_dropWhile_of_not hne2 hchar2 h2
  have h4 := List.IsInfix.reverse h3
  simpa using h4

theorem infix_of_infix_cons_not_mem {t : List Char} {a : Char} {l : List Char}
    (ha : a ∉ t) (h : t <:+: a :: l) : t <:+: l := by
  rcases List.infix_cons_iff.mp h with hpre | hinf
  · rcases t with _ | ⟨b, t2⟩
    · simp
    · obtain ⟨rfl, -⟩ := List.cons_prefix_cons.mp hpre
      exact absurd (List.mem_cons_self b t2) ha
  · exact hinf

theorem infix_drop_of_disjoint {t : List Char} :
    ∀ {pat rest : List Char}, (∀ c ∈ t, c ∉ pat) → t <:+: pat ++ rest → t <:+: rest := by
  intro pat
  induction pat with
  | nil => intro rest _ h; simpa using h
  | cons a ps ih =>
    intro rest hd h
    apply ih (fun c hc hmem => hd c hc (List.mem_cons_of_mem a hmem))
    apply infix_of_infix_cons_not_mem (fun hat => hd a hat (List.mem_cons_self a ps))
    simpa using h

theorem prefix_removeAll {p : Char} {ps : List Char} :
    ∀ {t s : List Char}, (∀ c ∈ t, c ∉ p :: ps) → t <+: s → t <+: removeAll p ps s := by
  intro t
  induction t with
  | nil => intro s _ _; exact List.nil_prefix
  | cons a t2 ih =>
    intro s hd hpre
    rcases s with _ | ⟨b, s2⟩
    · exact absurd (List.IsPrefix.eq_of_length_le hpre (by simp)) (by simp)
    · obtain ⟨rfl, hpre2⟩ := List.cons_prefix_cons.mp hpre
      have hpa : (p == a) = false := by
        have : a ≠ p := fun hap => hd a (List.mem_cons_self a t2) (hap ▸ List.mem_cons_self p ps)
        simp [beq_iff_eq]
        exact fun hpa2 => this hpa2.symm
      have hnp : ((p :: ps).isPrefixOf (a :: s2)) = false := by
        simp [List.isPrefixOf, hpa]
      rw [show removeAll p ps (a :: s2) = a :: removeAll p ps s2 from by
        simp [removeAll, hnp]]
      exact List.cons_prefix_cons.mpr ⟨rfl, ih (fun c hc => hd c (List.mem_cons_of_mem a hc)) hpre2⟩

theorem infix_removeAll_aux {p : Char} {ps t : List Char}
    (hd : ∀ c ∈ t, c ∉ p :: ps) :
    ∀ (n : Nat) (s : List Char), s.length ≤ n → t <:+: s → t <:+: removeAll p ps s := by
  intro n
  induction n with
  | zero =>
    intro s hlen h
    have hs : s = [] := List.eq_nil_of_length_eq_zero (Nat.le_zero.mp hlen)
    subst hs
    simpa [removeAll] using h
  | succ n ih =>
    intro s hlen h
    rcases s with _ | ⟨c, s2⟩
    · simpa [removeAll] using h
    · by_cases hpre : ((p :: ps).isPrefixOf (c :: s2)) = true
      · have heq : c :: s2 = (p :: ps) ++ s2.drop ps.length := by
          obtain ⟨u, hu⟩ := List.isPrefixOf_iff_prefix.mp hpre
          have hu2 := congrArg (List.drop (p :: ps).length) hu
          rw [List.drop_left] at hu2
          rw [← hu, hu2]
          simp
        have ht : t <:+: s2.drop ps.length := by
          apply infix_drop_of_disjoint hd
          rw [← heq]
          exact h
        have hlt : (s2.drop ps.length).length ≤ n := by
          simp only [List.length_cons] at hlen
          simp [List.length_drop]
          omega
        have := ih (s2.drop ps.length) hlt ht
        rw [show removeAll p ps (c :: s2) = removeAll p ps (s2.drop ps.length) from by
          simp [removeAll, hpre]]
        exact this
      · have heq2 : removeAll p ps (c :: s2) = c :: removeAll p ps s2 := by
          simp [removeAll, hpre]
        rcases List.infix_cons_iff.mp h with hp | hinf
        · have := prefix_removeAll hd hp
          exact this.isInfix
        · have hlen2 : s2.length ≤ n := by
            simp only [List.length_cons] at hlen
            omega
          rw [heq2]
          exact List.infix_cons (ih s2 hlen2 hinf)

theorem infix_removeAllPat {pat t : List Char} (hd : ∀ c ∈ t, c ∉ pat) :
    ∀ {s : List Char}, t <:+: s → t <:+: removeAllPat pat s := by
  intro s h
  match pat, hd with
  | [], _ => simpa [removeAllPat] using h
  | p :: ps, hd => exact infix_removeAll_aux hd s.length s (Nat.le_refl _) h

theorem processContent_none_of_sentinel {raw : List Char}
    (h : noNewsTok <:+: raw) : processContent raw = none := by
  have hne : noNewsTok ≠ [] := by decide
  have hws : ∀ c ∈ noNewsTok, isWs c = false := by decide
  have h1 : noNewsTok <:+: trimWs raw := infix_trimWs hne hws h
  unfold processContent
  by_cases hf : (fenceTok.isPrefixOf (trimWs raw)) = true
  · have h2 : noNewsTok <:+: removeAllPat fenceJsonTok (trimWs raw) :=
      infix_removeAllPat (by decide) h1
    have h3 : noNewsTok <:+: removeAllPat fenceTok (removeAllPat fenceJsonTok (trimWs raw)) :=
      infix_removeAllPat (by decide) h2
    have h4 := infix_trimWs hne hws h3
    have h5 := containsSub_iff.mpr h4
    simp [hf, h5]
  · have h5 := containsSub_iff.mpr h1
    simp [hf, h5]

/-! ### Lemmas: broadcast send loop -/

theorem broadcastSendLoop_delivered (fails : Handle → Bool) :
    ∀ (iter live : List Handle),
      (broadcastSendLoop fails iter live).2 = iter.filter (fun h => !fails h) := by
  intro iter
  induction iter with
  | nil => intro live; simp [broadcastSendLoop]
  | cons ws rest ih =>
    intro live
    cases hf : fails ws with
    | true => simp [broadcastSendLoop, hf, ih]
    | false => simp [broadcastSendLoop, hf, ih]

theorem broadcastSendLoop_post (fails : Handle → Bool) :
    ∀ (iter live : List Handle),
      (broadcastSendLoop fails iter live).1 =
        (iter.filter fails).foldl List.erase live := by
  intro iter
  induction iter with
  | nil => intro live; simp [broadcastSendLoop]
  | cons ws rest ih =>
    intro live
    cases hf : fails ws with
    | true => simp [broadcastSendLoop, hf, ih]
    | false => simp [broadcastSendLoop, hf, ih]

theorem foldl_erase_cons_of_not_mem {c : Handle} :
    ∀ (l live : List Handle), c ∉ l →
      l.foldl List.erase (c :: live) = c :: l.foldl List.erase live := by
  intro l
  induction l with
  | nil => intro live _; simp
  | cons a l2 ih =>
    intro live hc
    have hac : ¬((c : Handle) == a) = true := by
      simp only [beq_iff_eq]
      intro h
      exact hc (h ▸ List.mem_cons_self a l2)
    simp only [List.foldl_cons]
    rw [List.erase_cons_tail hac]
    exact ih (live.erase a) (fun h => hc (List.mem_cons_of_mem a h))

theorem foldl_erase_filter {fails : Handle → Bool} :
    ∀ {clients : List Handle}, clients.Nodup →
      (clients.filter fails).foldl List.erase clients =
        clients.filter (fun h => !fails h) := by
  intro clients
  induction clients with
  | nil => intro _; simp
  | cons c cs ih =>
    intro hnd
    obtain ⟨hcn, hnd2⟩ := List.nodup_cons.mp hnd
    cases hf : fails c with
    | true =>
      have hfilt : List.filter fails (c :: cs) = c :: List.filter fails cs := by
        simp [List.filter_cons, hf]
      have hfilt2 : List.filter (fun h => !fails h) (c :: cs) =
          List.filter (fun h => !fails h) cs := by
        simp [List.filter_cons, hf]
      rw [hfilt, hfilt2, List.foldl_cons, List.erase_cons_head]
      exact ih hnd2
    | false =>
      have hcf : c ∉ cs.filter fails := fun h => hcn (List.mem_of_mem_filter h)
      have hfilt : List.filter fails (c :: cs) = List.filter fails cs := by
        simp [List.filter_cons, hf]
      have hfilt2 : List.filter (fun h => !fails h) (c :: cs) =
          c :: List.filter (fun h => !fails h) cs := by
        simp [List.filter_cons, hf]
      rw [hfilt, hfilt2, foldl_erase_cons_of_not_mem (cs.filter fails) cs hcf, ih hnd2]

/-- What a `broadcast` call returns whenever the payload normalizes: the
post-set and the delivered set are the non-failing handles, every handle of
the (copied) set is attempted, and serialization happens exactly when the
set was non-empty. -/
theorem broadcast_ok_spec {md : MessageData} {p : Json} {clients : List Handle}
    {fails : Handle → Bool} (hnd : clients.Nodup)
    (hok : normalizePayload md = Except.ok p) :
    broadcast md clients fails =
      Except.ok ⟨clients.filter (fun h => !fails h),
        if clients.isEmpty then none else some p,
        clients, clients.filter (fun h => !fails h)⟩ := by
  match clients, hnd with
  | [], _ => simp [broadcast]
  | c :: cs, hnd =>
    have h1 := broadcastSendLoop_post fails (c :: cs) (c :: cs)
    have h2 := broadcastSendLoop_delivered fails (c :: cs) (c :: cs)
    simp only [broadcast, hok, List.isEmpty_cons]
    rw [h1, h2, foldl_erase_filter hnd]
    simp

/-! ### Lemmas: credential pool dispensing -/

theorem dispenseN_spec :
    ∀ (n : Nat) (p : CredentialPool),
      (dispenseN n p).1 =
        (List.range n).map (fun i => p.keys.getD ((p.cursor + i) % p.keys.length) "") ∧
      (dispenseN n p).2 = ⟨p.keys, p.cursor + n⟩ := by
  intro n
  induction n with
  | zero => intro p; exact ⟨by simp [dispenseN], by simp [dispenseN]⟩
  | succ n ih =>
    intro p
    obtain ⟨h1, h2⟩ := ih ⟨p.keys, p.cursor + 1⟩
    constructor
    · simp only [dispenseN, dispense]
      rw [h1, List.range_succ_eq_map]
      simp only [List.map_cons, List.map_map]
      refine congrArg₂ List.cons ?_ ?_
      · simp
      · apply List.map_congr_left
        intro i _
        simp only [Function.comp]
        have he : p.cursor + 1 + i = p.cursor + (i + 1) := by omega
        rw [he]
    · simp only [dispenseN, dispense]
      rw [h2]
      refine congrArg₂ CredentialPool.mk rfl ?_
      show p.cursor + 1 + n = p.cursor + (n + 1)
      omega

/-! ### Claim theorems -/

/-- C1 (amended): on a rate-limit/quota signal from the Summarization
service, `process_with_gemini` neither rotates a credential nor retries:
the cycle performs exactly one attempt, with the single configured key,
yields no result, and no error propagates; in general a cycle never makes
more than one attempt. -/
theorem gemini_quota_no_retry (key : Option String) (item : String × String)
    (items : List (String × String)) (oracle : Nat → GeminiOutcome)
    (h : oracle 0 = GeminiOutcome.quotaError) :
    processWithGemini key (some (item :: items)) oracle = ⟨none, 1, [key]⟩ ∧
    ∀ (tav : Option (List (String × String))) (oracle2 : Nat → GeminiOutcome),
      (processWithGemini key tav oracle2).attempts ≤ 1 := by
  constructor
  · simp [processWithGemini, h]
  · intro tav oracle2
    match tav with
    | none => simp [processWithGemini]
    | some [] => simp [processWithGemini]
    | some (x :: xs) =>
      simp only [processWithGemini]
      cases oracle2 0 <;> simp

/-- Witness for `gemini_quota_no_retry` at a concrete quota-failing oracle. -/
theorem gemini_quota_no_retry_witness :
    processWithGemini (some "key0") (some [("url", "body")])
      (fun _ => GeminiOutcome.quotaError) = ⟨none, 1, [some "key0"]⟩ :=
  (gemini_quota_no_retry (some "key0") ("url", "body") []
    (fun _ => GeminiOutcome.quotaError) rfl).1

/-- C1 (counterexample): with the quota signal on the first attempt and a
valid summary available on a second, `process_with_gemini` still performs
exactly one attempt with the one configured key and returns no result — it
never makes the second attempt the claimed retry-with-rotation requires. -/
theorem gemini_quota_counterexample :
    processWithGemini (some "key0") (some [("url", "body")]) quotaThenOk =
      ⟨none, 1, [some "key0"]⟩ ∧
    ¬ 2 ≤ (processWithGemini (some "key0") (some [("url", "body")]) quotaThenOk).attempts := by
  exact ⟨rfl, by decide⟩

/-- C2 (amended): startup performs no credential check: whatever the
environment — in particular with no LLM API key present — `main` starts
the server and enters the news loop and never exits first. -/
theorem startup_enters_loop (env : Env) :
    StartupAction.enterNewsLoop ∈ mainStartup (loadConfig env) ∧
    StartupAction.exitProcess ∉ mainStartup (loadConfig env) := by
  constructor
  · simp [mainStartup]
  · simp [mainStartup]

/-- C2 (counterexample): with an empty environment the LLM key is absent
(`None`), yet the startup sequence still reaches the news loop and
contains no exit — the process does not refuse to start. -/
theorem startup_missing_key_counterexample :
    (loadConfig []).googleApiKey = none ∧
    StartupAction.enterNewsLoop ∈ mainStartup (loadConfig []) ∧
    StartupAction.exitProcess ∉ mainStartup (loadConfig []) := by
  refine ⟨rfl, ?_, ?_⟩ <;> decide

/-- C3: any raw model output containing the sentinel `"NO_NEWS"` anywhere
is post-processed to `None`, and the cycle consequently hands no message
to the transport. -/
theorem sentinel_yields_none (raw : List Char)
    (h : containsSub noNewsTok raw = true) :
    processContent raw = none ∧
    ∀ (key : Option String) (item : String × String) (items : List (String × String)),
      newsCycleMessage key (some (item :: items)) (fun _ => GeminiOutcome.ok raw) = none := by
  have hinf := containsSub_iff.mp h
  have hnone := processContent_none_of_sentinel hinf
  refine ⟨hnone, ?_⟩
  intro key item items
  simp [newsCycleMessage, processWithGemini, hnone]

/-- Witness for `sentinel_yields_none` on a fenced response embedding the
sentinel among surrounding content. -/
theorem sentinel_yields_none_witness :
    containsSub noNewsTok "```json NO_NEWS today ```".toList = true ∧
    processContent "```json NO_NEWS today ```".toList = none ∧
    newsCycleMessage (some "key0") (some [("url", "body")])
      (fun _ => GeminiOutcome.ok "```json NO_NEWS today ```".toList) = none := by
  refine ⟨by decide, ?_, ?_⟩
  · exact (sentinel_yields_none _ (by decide)).1
  · exact (sentinel_yields_none _ (by decide)).2 (some "key0") ("url", "body") []

/-- C4 (amended): every normalizer input that needs synthesis — a raw
string whose JSON parse fails, or a parsed or direct object without a
`type` key — yields a payload whose `type` field is `"chat"` and whose
`text` is the original string, respectively the object's `text` value, or
the object's Python string form when absent; that `text` may be empty, so
the non-emptiness part of the original claim does not hold. -/
theorem normalize_synthesizes_chat :
    (∀ s : String,
      normalizePayload (MessageData.rawStr s none) = Except.ok (chatObj (Json.str s))) ∧
    (∀ (s : String) (fs : List (String × Json)), hasTypeKey fs = false →
      normalizePayload (MessageData.rawStr s (some (Json.obj fs))) =
        Except.ok (chatObj ((jsonGet fs "text").getD
          (Json.str (pyStrOfJson (Json.obj fs)))))) ∧
    (∀ fs : List (String × Json), hasTypeKey fs = false →
      normalizePayload (MessageData.direct (Json.obj fs)) =
        Except.ok (chatObj ((jsonGet fs "text").getD
          (Json.str (pyStrOfJson (Json.obj fs)))))) := by
  refine ⟨fun s => rfl, ?_, ?_⟩
  · intro s fs h
    simp [normalizePayload, typeFix, pyContainsTypeKey, h, synthChat]
  · intro fs h
    simp [normalizePayload, typeFix, pyContainsTypeKey, h, synthChat]

/-- Witness for `normalize_synthesizes_chat` on an object carrying only a
`text` field. -/
theorem normalize_synthesizes_chat_witness :
    normalizePayload (MessageData.rawStr "x" (some (Json.obj [("text", Json.str "hello")]))) =
      Except.ok (chatObj (Json.str "hello")) := by
  have h := normalize_synthesizes_chat.2.1 "x" [("text", Json.str "hello")] rfl
  simpa [jsonGet] using h

/-- C4 (counterexample): the model output `{"text": ""}` parses to an
object without a `type` key; the synthesized wire payload is
`{"type": "chat", "text": ""}`, whose `text` is empty — refuting the
claimed non-empty `text`. -/
theorem normalize_empty_text_counterexample :
    normalizePayload emptyTextInput = Except.ok (chatObj (Json.str "")) ∧
    textNonempty (chatObj (Json.str "")) = false :=
  ⟨rfl, rfl⟩

/-- C5: whenever the payload normalizes, a broadcast attempts a send to
every handle of the set, evicts exactly the handles whose send raised,
delivers to all the others, and no exception escapes the call. -/
theorem broadcast_eviction (md : MessageData) (p : Json) (clients : List Handle)
    (fails : Handle → Bool) (hnd : clients.Nodup)
    (hok : normalizePayload md = Except.ok p) :
    ∃ r : BroadcastResult,
      broadcast md clients fails = Except.ok r ∧
      r.attempts = clients ∧
      r.post = clients.filter (fun h => !fails h) ∧
      r.delivered = clients.filter (fun h => !fails h) := by
  exact ⟨_, broadcast_ok_spec hnd hok, rfl, rfl, rfl⟩

/-- Witness for `broadcast_eviction`: handles A = 0 and B = 1, the send to
B raises; the post-state set contains only A and nothing escapes. -/
theorem broadcast_eviction_witness :
    ∃ r : BroadcastResult,
      broadcast chatMsgInput [0, 1] (fun h => h == 1) = Except.ok r ∧
      r.attempts = [0, 1] ∧ r.post = [0] ∧ r.delivered = [0] := by
  obtain ⟨r, h1, h2, h3, h4⟩ := broadcast_eviction chatMsgInput
    (Json.obj [("type", Json.str "chat"), ("text", Json.str "hi")])
    [0, 1] (fun h => h == 1) (by decide) rfl
  exact ⟨r, h1, h2, by rw [h3]; decide, by rw [h4]; decide⟩

/-- C6: a broadcast over an empty client set is a silent no-op — it
returns before normalizing or serializing the payload, attempts no send,
raises nothing, and leaves the (empty) set unchanged. -/
theorem broadcast_empty_noop (md : MessageData) (fails : Handle → Bool) :
    broadcast md [] fails = Except.ok ⟨[], none, [], []⟩ := rfl

/-- C7 (amended): the client variant's cycle query is the fixed base
phrase followed by a space and the current-date string produced by
`strftime("%Y-%m-%d")`; the server variant instead passes the constant
`SEARCH_QUERY` on every cycle, independent of the date. -/
theorem cycle_query_shape (today t2 : String) :
    clientQueryBase.toList <+: (clientCycleQuery today).toList ∧
    today.toList <:+ (clientCycleQuery today).toList ∧
    serverCycleQuery today = serverCycleQuery t2 := by
  refine ⟨?_, ?_, rfl⟩
  · show clientQueryBase.toList <+: (clientQueryBase ++ " " ++ today).toList
    simp only [String.toList, String.data_append, List.append_assoc]
    exact List.prefix_append _ _
  · show today.toList <:+ (clientQueryBase ++ " " ++ today).toList
    simp only [String.toList, String.data_append]
    exact List.suffix_append _ _

/-- C7 (counterexample): on a cycle whose current date is 2026-10-12 the
server variant hands the fetcher the constant `SEARCH_QUERY`, which does
not contain that date, so the query is not the base phrase concatenated
with the current date. -/
theorem server_query_no_date_counterexample :
    serverCycleQuery "2026-10-12" = SEARCH_QUERY ∧
    containsSub "2026-10-12".toList (serverCycleQuery "2026-10-12").toList = false :=
  ⟨rfl, by decide⟩

/-- C8: `send_oneshot_message` opens at most one fresh connection per call;
on the happy path it sends exactly the one serialized payload on it and
then closes it; a connection failure is caught and reported, nothing is
sent (the message is dropped), no retry happens, and no call ever lets an
exception escape. -/
theorem oneshot_contract (md : MessageData) (p : Json) (conn : ConnOutcome)
    (hok : normalizePayload md = Except.ok p) :
    (sendOneshotMessage md conn).connectionsAttempted = 1 ∧
    (sendOneshotMessage md ConnOutcome.ok).sent = [p] ∧
    (sendOneshotMessage md ConnOutcome.ok).connectionsOpened = 1 ∧
    (sendOneshotMessage md ConnOutcome.ok).closedCount = 1 ∧
    (sendOneshotMessage md ConnOutcome.refused).sent = [] ∧
    (sendOneshotMessage md ConnOutcome.refused).reported = true ∧
    ∀ (md2 : MessageData) (conn2 : ConnOutcome),
      (sendOneshotMessage md2 conn2).raised = false ∧
      (sendOneshotMessage md2 conn2).connectionsAttempted ≤ 1 := by
  refine ⟨?_, ?_, ?_, ?_, ?_, ?_, ?_⟩
  · simp only [sendOneshotMessage, hok]
    cases conn <;> rfl
  · simp [sendOneshotMessage, hok]
  · simp [sendOneshotMessage, hok]
  · simp [sendOneshotMessage, hok]
  · simp [sendOneshotMessage, hok]
  · simp [sendOneshotMessage, hok]
  · intro md2 conn2
    simp only [sendOneshotMessage]
    cases hn : normalizePayload md2
    · exact ⟨rfl, by simp⟩
    · cases conn2 <;> exact ⟨rfl, by simp⟩

/-- Witness for `oneshot_contract`: a refused connection drops the message
and reports, and the happy path sends the payload once. -/
theorem oneshot_contract_witness :
    (sendOneshotMessage chatMsgInput ConnOutcome.refused).sent = [] ∧
    (sendOneshotMessage chatMsgInput ConnOutcome.refused).reported = true ∧
    (sendOneshotMessage chatMsgInput ConnOutcome.ok).sent =
      [Json.obj [("type", Json.str "chat"), ("text", Json.str "hi")]] := by
  have h := oneshot_contract chatMsgInput
    (Json.obj [("type", Json.str "chat"), ("text", Json.str "hi")])
    ConnOutcome.refused rfl
  exact ⟨h.2.2.2.2.1, h.2.2.2.2.2.1, h.2.1⟩

/-- C9 (modelled from the spec): for a pool of N ≥ 1 keys, the first and
the (N+1)-th dispensed keys coincide — the cursor advances by one per
dispense and wraps after the last key — and the key list itself never
grows or shrinks, whatever the number of dispenses. -/
theorem credential_pool_round_robin (p : CredentialPool) (_hne : p.keys ≠ []) :
    ((dispenseN (p.keys.length + 1) p).1).getD 0 "" =
      ((dispenseN (p.keys.length + 1) p).1).getD p.keys.length "" ∧
    ∀ n : Nat, (dispenseN n p).2.keys = p.keys := by
  have hs := (dispenseN_spec (p.keys.length + 1) p).1
  have hget : ∀ (k i : Nat) (f : Nat → String), i < k →
      ((List.range k).map f).getD i "" = f i := by
    intro k i f hik
    simp [List.getD_eq_getElem?_getD, List.getElem?_map, List.getElem?_range hik]
  constructor
  · rw [hs, hget _ 0 _ (by omega), hget _ p.keys.length _ (by omega)]
    simp [Nat.add_mod_right]
  · intro n
    rw [(dispenseN_spec n p).2]

/-- Witness for `credential_pool_round_robin` on a two-key pool: three
dispenses yield the first key again on the third. -/
theorem credential_pool_round_robin_witness :
    ((dispenseN 3 ⟨["a", "b"], 0⟩).1).getD 0 "" =
      ((dispenseN 3 ⟨["a", "b"], 0⟩).1).getD 2 "" ∧
    (dispenseN 3 ⟨["a", "b"], 0⟩).2.keys = ["a", "b"] := by
  have h := credential_pool_round_robin ⟨["a", "b"], 0⟩ (by decide)
  exact ⟨h.1, h.2 3⟩

/-- C10: removal from the client set is not idempotent across its two
paths — once a broadcast has evicted a failing handle, the unconditional
`set.remove` in the connection handler's close-path cleanup finds the
handle absent and raises `KeyError` instead of being a no-op. -/
theorem close_after_eviction_keyerror (md : MessageData) (p : Json)
    (clients : List Handle) (fails : Handle → Bool) (b : Handle)
    (r : BroadcastResult) (hnd : clients.Nodup) (_hb : b ∈ clients)
    (hf : fails b = true) (hok : normalizePayload md = Except.ok p)
    (hrun : broadcast md clients fails = Except.ok r) :
    setRemove r.post b = Except.error PyErr.keyError := by
  rw [broadcast_ok_spec hnd hok] at hrun
  have hr := (Except.ok.injEq _ _).mp hrun
  have hpost : r.post = clients.filter (fun h => !fails h) := by
    rw [← hr]
  have hnb : b ∉ r.post := by
    rw [hpost]
    intro hmem
    have := List.of_mem_filter hmem
    rw [hf] at this
    exact absurd this (by simp)
  simp [setRemove, hnb]

/-- Witness for `close_after_eviction_keyerror`: handle 1 is evicted by the
failing send, and the handler's later cleanup removal raises `KeyError`. -/
theorem close_after_eviction_keyerror_witness :
    setRemove (BroadcastResult.post
      ⟨[0], some (Json.obj [("type", Json.str "chat"), ("text", Json.str "hi")]),
        [0, 1], [0]⟩) 1 = Except.error PyErr.keyError := by
  exact close_after_eviction_keyerror chatMsgInput
    (Json.obj [("type", Json.str "chat"), ("text", Json.str "hi")])
    [0, 1] (fun h => h == 1) 1 _ (by decide) (by decide) rfl rfl rfl

end MewNews
